import Mathlib

/-!
Shallow embedding of the julia repository (a GPU Julia-set renderer and
exporter) together with theorems settling a list of claims about its
specification.

Conventions of the embedding:
* Rust `f32` values are modelled as exact rationals (`ℚ`); the claims settled
  here concern only comparisons, copies and single arithmetic operations, so
  rounding plays no role in them.
* Rust `u32`/`usize` values are modelled as `ℕ`; none of the claims exercises
  integer overflow.
* GPU resources are modelled by the data that determines them (buffer
  contents, image dimensions, recorded dispatch sizes), and each allocation
  performed by the code is recorded as an explicit `GpuAlloc` event.
* The compute shader itself is out of scope of the specification (it is
  "treated as an opaque image-producing function"); the models are therefore
  parameterized by a function `gpu : ImgDimensions → JuliaData → List ℕ`
  giving the bytes the dispatch-plus-copy command sequence leaves in the
  output buffer for a given cache key.
* The repository contains two revisions of the export cache: one inlined in
  `src/lib.rs` (namespace `LibRs` below) and one in `src/export.rs`
  (namespace `ExportRs`).  Both are embedded, since they differ in
  behaviour.
-/

namespace Julia

/-- Image dimensions, from `ImgDimensions` in src/lib.rs lines 73-77
(`width: u32, height: u32`). -/
structure ImgDimensions where
  width : ℕ
  height : ℕ
  deriving DecidableEq

/-- Two-component float vector (gramit `Vec2`), components modelled as `ℚ`. -/
structure Vec2 where
  x : ℚ
  y : ℚ
  deriving DecidableEq

/-- Four-component float vector (gramit `Vec4`), components modelled as `ℚ`. -/
structure Vec4 where
  x : ℚ
  y : ℚ
  z : ℚ
  w : ℚ
  deriving DecidableEq

instance : DecidableEq (Fin 3 → Vec4) := fun f g =>
  decidable_of_iff (∀ i, f i = g i) (by constructor <;> intro h <;> [exact funext h; exact fun i => h ▸ rfl])

instance : DecidableEq (Fin 3 → ℚ) := fun f g =>
  decidable_of_iff (∀ i, f i = g i) (by constructor <;> intro h <;> [exact funext h; exact fun i => h ▸ rfl])

/-- The parameter set of one fractal instance, from `JuliaData` in
src/lib.rs lines 30-42: three gradient colors, a single gradient midpoint,
exponent `n`, constant `c`, iteration cap, viewport center and extents. -/
structure JuliaData where
  color : Fin 3 → Vec4
  color_midpoint : ℚ
  n : ℕ
  c : Vec2
  iters : ℕ
  center : Vec2
  extents : Vec2
  deriving DecidableEq

namespace Ifc

/-!
The interactive-viewer snapshot (src/interface.rs).  In that revision the
crate-root `JuliaData` carries an array of three gradient midpoints
(`color_midpoint: [f32; 3]`, see `default_state` in src/interface.rs lines
251-261 and `print_state`, which borrows it as a `&[f32; 3]`), so the
interface model gets its own copy of the structure.
-/

/-- The parameter set as used by src/interface.rs: identical to the
crate-root structure except that `color_midpoint` is an array of three
fractions, modelled as `Fin 3 → ℚ`. -/
structure JuliaData where
  color : Fin 3 → Vec4
  color_midpoint : Fin 3 → ℚ
  n : ℕ
  c : Vec2
  iters : ℕ
  center : Vec2
  extents : Vec2

/-- Mouse state, from `MouseState` in src/interface.rs lines 55-59. -/
structure MouseState where
  pos : Vec2
  dragging : Bool

/-- An HSV color (the palette crate `Hsv` type), components modelled as `ℚ`. -/
structure Hsv where
  hue : ℚ
  saturation : ℚ
  value : ℚ

/-- The interactive state, from `JuliaState` in src/interface.rs lines
43-53.  The active indices are `u8` in the source but are only ever set
through `set_active_color` / `set_active_midpt`, which reject indices ≥ 3,
and are initialised to 0 and 1 (src/interface.rs lines 628-629); they are
therefore modelled as `Fin 3`. -/
structure JuliaState where
  data : JuliaData
  mouse_state : MouseState
  hsv_colors : Fin 3 → Hsv
  active_color : Fin 3
  active_midpt : Fin 3
  close_requested : Bool
  export_dimensions : ImgDimensions
  export_requested : Bool

/-- The pointwise effect of `JuliaState::adjust_active_midpt`
(src/interface.rs lines 151-164) on the midpoint array: with
`midpt = m[idx] + amount`, the loop lowers every earlier entry that exceeds
`midpt` to `midpt`, raises every later entry that is below `midpt` to
`midpt`, and finally the active entry itself is set to `midpt`.  The loop
body only reads `midpt`, so the sequential loop is equal to this pointwise
function. -/
def adjustedMidpts (m : Fin 3 → ℚ) (idx : Fin 3) (amount : ℚ) : Fin 3 → ℚ :=
  let midpt := m idx + amount
  fun i =>
    if i < idx then (if m i > midpt then midpt else m i)
    else if idx < i then (if m i < midpt then midpt else m i)
    else midpt

/-- Method `JuliaState::adjust_active_midpt` from src/interface.rs lines
151-164. -/
def JuliaState.adjust_active_midpt (s : JuliaState) (amount : ℚ) : JuliaState :=
  { s with
    data := { s.data with
      color_midpoint := adjustedMidpts s.data.color_midpoint s.active_midpt amount } }

/-- The parameter copy an interactive export renders, from
`JuliaInterface::export` in src/interface.rs lines 694-703: the on-screen
`JuliaData` is copied, and when the export width and height differ the
extent along the longer axis of the copy is multiplied by the aspect ratio
(`extents.y` by `height/width` when `width < height`, `extents.x` by
`width/height` otherwise). -/
def exportData (s : JuliaState) : JuliaData :=
  let width := s.export_dimensions.width
  let height := s.export_dimensions.height
  if width ≠ height then
    if width < height then
      let ratio : ℚ := (height : ℚ) / (width : ℚ)
      { s.data with extents := { s.data.extents with y := s.data.extents.y * ratio } }
    else
      let ratio : ℚ := (width : ℚ) / (height : ℚ)
      { s.data with extents := { s.data.extents with x := s.data.extents.x * ratio } }
  else
    s.data

/-- The arguments `JuliaInterface::export` passes to `JuliaExport::export`
(src/interface.rs lines 707-712): the stored export dimensions and the
rescaled parameter copy.  (The filename is built from `JuliaData::name`,
which formats the parameters; it does not affect the state.) -/
structure ExportCall where
  dims : ImgDimensions
  data : JuliaData

/-- Method `JuliaInterface::export` from src/interface.rs lines 684-717 as
a state transformer: it reads the state, passes `(export_dimensions,
exportData)` to the export cache, and returns the state unchanged (the
trailing `poll_events` call drains window events and touches no state). -/
def JuliaInterface.doExport (s : JuliaState) : ExportCall × JuliaState :=
  (⟨s.export_dimensions, exportData s⟩, s)

/-- The per-frame export check at the end of `JuliaInterface::run`
(src/interface.rs lines 739-742): when `export_requested` is set the
interface exports once and then clears the flag; otherwise nothing
happens. -/
def runExportCheck (s : JuliaState) : Option ExportCall × JuliaState :=
  if s.export_requested then
    let r := JuliaInterface.doExport s
    (some r.1, { r.2 with export_requested := false })
  else
    (none, s)

end Ifc

/-!
The export pipeline.  Shared pieces first: the GPU-layout parameter record,
the allocation events the export code performs, and the image-crate
`ImageBuffer::from_raw` constructor.
-/

/-- The fixed-layout record the compute program consumes
(`julia_comp::ty::Data`, produced by `JuliaData::into_shader_data` in
src/lib.rs lines 44-70).  The `_dummy0` padding bytes carry no
information and are omitted. -/
structure CompData where
  color : Fin 3 → Vec4
  midpt : ℚ
  n : ℕ
  c : Vec2
  iters : ℕ
  center : Vec2
  extents : Vec2

/-- Method `JuliaData::into_shader_data` from src/lib.rs lines 44-70: a
field-for-field copy of the parameter set into the GPU layout. -/
def JuliaData.into_shader_data (d : JuliaData) : CompData :=
  { color := d.color
    midpt := d.color_midpoint
    n := d.n
    c := d.c
    iters := d.iters
    center := d.center
    extents := d.extents }

/-- One GPU resource allocation or command-recording call performed by the
export code, in program order.  `inputBuffer` is
`ImmutableBuffer::from_data`, `storageImage` is `StorageImage::new`,
`outputBuffer` is `CpuAccessibleBuffer::from_iter`, `descriptorSet` is
`PersistentDescriptorSet::start ... build`, and `commandBuffer` is
`AutoCommandBufferBuilder::new ... dispatch ... copy_image_to_buffer ...
build` with the recorded workgroup counts. -/
inductive GpuAlloc where
  | inputBuffer (data : CompData)
  | storageImage (width height : ℕ)
  | outputBuffer (len : ℕ)
  | descriptorSet
  | commandBuffer (dispatch : ℕ × ℕ × ℕ)

/-- A decoded raster image: the value `ImageBuffer::<Rgba<u8>, _>` holds
right before `save` writes it to disk (four bytes per pixel, RGBA order). -/
structure RawImage where
  width : ℕ
  height : ℕ
  data : List ℕ

/-- The image-crate constructor `ImageBuffer::from_raw(width, height, buf)`:
it succeeds exactly when the byte container is large enough for
`width * height` RGBA8 pixels, and stores the bytes as given. -/
def ImageBuffer.from_raw (width height : ℕ) (buf : List ℕ) : Option RawImage :=
  if width * height * 4 ≤ buf.length then some ⟨width, height, buf⟩ else none

/-- A recorded dispatch-plus-copy command sequence: the workgroup counts
passed to `dispatch` (the copy-image-to-buffer step carries no
parameters beyond the bound resources). -/
structure CommandBuffer where
  dispatch : ℕ × ℕ × ℕ
  deriving DecidableEq

/-- An execution model for the opaque compute program: the bytes the
dispatch-plus-copy sequence leaves in the output buffer, as a function of
the cache key it was recorded for.  The specification treats the shader as
an opaque image-producing function, so the models below are parameterized
by this. -/
def GpuModel : Type := ImgDimensions → JuliaData → List ℕ

namespace ExportRs

/-!
The export cache of src/export.rs.  Its cache entry stores the three GPU
resources; the descriptor set and command buffer are rebuilt on every
export call by `JuliaExport::command_buffer`.
-/

/-- Cache entry, from `JuliaExportCache` in src/export.rs lines 29-35: the
key `(dims, data)`, the immutable input buffer (identified by its
contents), the storage image (identified by its dimensions) and the
CPU-accessible output buffer (its bytes). -/
structure JuliaExportCache where
  dims : ImgDimensions
  data : JuliaData
  input_buffer : CompData
  image : ImgDimensions
  output_buffer : List ℕ

/-- The key a cache entry materializes. -/
def JuliaExportCache.key (c : JuliaExportCache) : ImgDimensions × JuliaData :=
  (c.dims, c.data)

/-- The initial cache of a fresh `JuliaExport` (src/export.rs line 48:
`cached_data: Cell::new(None)`). -/
def initialCache : Option JuliaExportCache := none

/-- Method `JuliaExport::regen_cache` from src/export.rs lines 52-89: it
marshals the parameters, allocates a fresh input buffer from them, a fresh
storage image sized to `dims`, and a fresh zero-initialised output buffer
of `width * height * 4` bytes, waits on the upload fence, and stores all
three as the new cache entry under the key `(dims, data)`. -/
def regen_cache (dims : ImgDimensions) (data : JuliaData) :
    JuliaExportCache × List GpuAlloc :=
  let shader_data := data.into_shader_data
  (⟨dims, data, shader_data, dims, List.replicate (dims.width * dims.height * 4) 0⟩,
   [GpuAlloc.inputBuffer shader_data,
    GpuAlloc.storageImage dims.width dims.height,
    GpuAlloc.outputBuffer (dims.width * dims.height * 4)])

/-- Method `JuliaExport::command_buffer` from src/export.rs lines 91-123:
on every call it builds a fresh persistent descriptor set over the cached
image and input buffer and records a fresh command buffer that dispatches
`[width / 8, height / 8, 1]` workgroups and then copies the image into the
output buffer. -/
def command_buffer (cache : JuliaExportCache) : CommandBuffer × List GpuAlloc :=
  (⟨(cache.dims.width / 8, cache.dims.height / 8, 1)⟩,
   [GpuAlloc.descriptorSet,
    GpuAlloc.commandBuffer (cache.dims.width / 8, cache.dims.height / 8, 1)])

/-- Result of one export call: the cache afterwards, the GPU allocations
performed, and the image handed to `save`. -/
structure ExportResult where
  cache : Option JuliaExportCache
  allocs : List GpuAlloc
  file : Option RawImage

/-- Method `JuliaExport::export_core` from src/export.rs lines 148-169: it
records the command buffer (`command_buffer`), executes it on the queue and
blocks on the fence — which fills the output buffer with the bytes the
dispatch-plus-copy produces for the cached key — then reads the buffer and
passes its bytes unchanged to `ImageBuffer::from_raw` with the cached
dimensions, and saves the result. -/
def export_core (gpu : GpuModel) (cache : JuliaExportCache) : ExportResult :=
  let cb := command_buffer cache
  let executed := { cache with output_buffer := gpu cache.dims cache.data }
  { cache := some executed
    allocs := cb.2
    file := ImageBuffer.from_raw executed.dims.width executed.dims.height
      executed.output_buffer }

/-- Method `JuliaExport::export` from src/export.rs lines 125-146: when the
cache is absent, or its stored data or dimensions differ from the request,
the entry is regenerated via `regen_cache`; otherwise it is kept; then
`export_core` runs. -/
def doExport (gpu : GpuModel) (cached_data : Option JuliaExportCache)
    (dims : ImgDimensions) (data : JuliaData) : ExportResult :=
  let step :=
    match cached_data with
    | none => regen_cache dims data
    | some c =>
      if c.data ≠ data ∨ c.dims ≠ dims then regen_cache dims data
      else (c, [])
  let core := export_core gpu step.1
  { core with allocs := step.2 ++ core.allocs }

end ExportRs

namespace LibRs

/-!
The export cache inlined in src/lib.rs.  Its cache entry stores the output
buffer and the prebuilt command buffer; the descriptor set and command
buffer are recorded once inside `regen_cache`, and — unlike the
src/export.rs revision — the cache-hit test compares only the parameter
data, not the dimensions.
-/

/-- Cache entry, from `JuliaExportCache` in src/lib.rs lines 143-148. -/
structure JuliaExportCache where
  dims : ImgDimensions
  data : JuliaData
  output_buffer : List ℕ
  command_buffer : CommandBuffer

/-- The key a cache entry materializes. -/
def JuliaExportCache.key (c : JuliaExportCache) : ImgDimensions × JuliaData :=
  (c.dims, c.data)

/-- The initial cache of a fresh `JuliaExport` (src/lib.rs line 161). -/
def initialCache : Option JuliaExportCache := none

/-- Method `JuliaExport::regen_cache` from src/lib.rs lines 165-228: it
allocates a fresh input buffer, a fresh storage image sized to `dims`, a
fresh descriptor set over them, a fresh zero-initialised output buffer, and
records the dispatch-plus-copy command buffer with `[width / 8,
height / 8, 1]` workgroups, then waits on the upload fence and stores the
entry. -/
def regen_cache (dims : ImgDimensions) (data : JuliaData) :
    JuliaExportCache × List GpuAlloc :=
  let shader_data := data.into_shader_data
  (⟨dims, data, List.replicate (dims.width * dims.height * 4) 0,
    ⟨(dims.width / 8, dims.height / 8, 1)⟩⟩,
   [GpuAlloc.inputBuffer shader_data,
    GpuAlloc.storageImage dims.width dims.height,
    GpuAlloc.descriptorSet,
    GpuAlloc.outputBuffer (dims.width * dims.height * 4),
    GpuAlloc.commandBuffer (dims.width / 8, dims.height / 8, 1)])

/-- Result of one export call in the src/lib.rs revision. -/
structure ExportResult where
  cache : Option JuliaExportCache
  allocs : List GpuAlloc
  file : Option RawImage

/-- Method `JuliaExport::export_core` from src/lib.rs lines 253-272: it
executes the cached command buffer and blocks on the fence — filling the
output buffer with the bytes the prerecorded sequence produces for the
cached key — then hands the buffer bytes unchanged to
`ImageBuffer::from_raw` with the cached dimensions and saves the result.
No new resources are allocated. -/
def export_core (gpu : GpuModel) (cache : JuliaExportCache) : ExportResult :=
  let executed := { cache with output_buffer := gpu cache.dims cache.data }
  { cache := some executed
    allocs := []
    file := ImageBuffer.from_raw executed.dims.width executed.dims.height
      executed.output_buffer }

/-- Method `JuliaExport::export` from src/lib.rs lines 230-251: when the
cache is absent the entry is regenerated; when it is present it is
regenerated only if the stored parameter data differs from the request —
the stored dimensions are not compared — and then `export_core` runs. -/
def doExport (gpu : GpuModel) (cached_data : Option JuliaExportCache)
    (dims : ImgDimensions) (data : JuliaData) : ExportResult :=
  let step :=
    match cached_data with
    | none => regen_cache dims data
    | some c =>
      if c.data ≠ data then regen_cache dims data
      else (c, [])
  let core := export_core gpu step.1
  { core with allocs := step.2 ++ core.allocs }

end LibRs

/-!
Dispatch sizing and pixel coverage.  All three dispatch sites in the
repository — `JuliaExport::command_buffer` (src/export.rs line 110),
`JuliaExport::regen_cache` (src/lib.rs line 205) and
`JuliaImage::draw_after` (src/image.rs line 87) — pass the same workgroup
counts `[width / 8, height / 8, 1]` with truncating integer division, over
workgroups of 8×8 threads (the shader-side `local_size`).
-/

/-- The workgroup counts the repository dispatches for a target of the
given dimensions: `[width / 8, height / 8, 1]` with truncating `u32`
division. -/
def dispatch_group_counts (dims : ImgDimensions) : ℕ × ℕ × ℕ :=
  (dims.width / 8, dims.height / 8, 1)

/-- Pixel `(x, y)` is covered by the dispatch when some workgroup within
the dispatched counts contains a thread (of the 8×8 local grid) whose
global coordinates are `(x, y)`. -/
def coveredByDispatch (dims : ImgDimensions) (x y : ℕ) : Prop :=
  ∃ gx gy tx ty : ℕ,
    gx < (dispatch_group_counts dims).1 ∧
    gy < (dispatch_group_counts dims).2.1 ∧
    tx < 8 ∧ ty < 8 ∧ x = 8 * gx + tx ∧ y = 8 * gy + ty

/-!
Physical-device discovery (src/lib.rs lines 319-356).
-/

/-- A queue family of a physical device: whether it supports compute, and
how many queue slots it exposes (the vulkano `QueueFamily` data the
selection code reads). -/
structure QueueFamily where
  supports_compute : Bool
  queues_count : ℕ

/-- The vulkano `PhysicalDeviceType` enumeration. -/
inductive PhysicalDeviceType where
  | DiscreteGpu
  | IntegratedGpu
  | VirtualGpu
  | Cpu
  | Other
  deriving DecidableEq

/-- A physical device as the selection code sees it: its type, whether
`DeviceExtensions::supported_by_device(d).khr_storage_buffer_storage_class`
holds (the ability to use device-local storage buffers), and its queue
families. -/
structure PhysicalDevice where
  ty : PhysicalDeviceType
  khr_storage_buffer_storage_class : Bool
  queue_families : List QueueFamily

/-- Function `num_compute_queues` from src/lib.rs lines 319-328: the sum of
`queues_count` over the compute-capable queue families. -/
def num_compute_queues (dev : PhysicalDevice) : ℕ :=
  dev.queue_families.foldl
    (fun total fam => if fam.supports_compute then total + fam.queues_count else total) 0

/-- One comparison step of Rust `Iterator::max_by_key`: keep the current
best unless the new element's key is at least as large (so for equal keys
the later element wins, as `max_by_key` specifies). -/
def maxStep (key : α → ℕ) (best : Option α) (x : α) : Option α :=
  match best with
  | none => some x
  | some b => if key b ≤ key x then some x else some b

/-- Rust `Iterator::max_by_key`: the element with the maximum key, the last
one if several are equally maximum, `none` on an empty iterator. -/
def max_by_key_last (key : α → ℕ) (l : List α) : Option α :=
  l.foldl (maxStep key) none

/-- Function `find_best_by_type` from src/lib.rs lines 330-348: among the
enumerated devices of the given type that support device-local storage
buffers, take the one with the most compute queues; then pair it with its
first compute-capable queue family, or give up if it has none. -/
def find_best_by_type (devices : List PhysicalDevice) (ty : PhysicalDeviceType) :
    Option (PhysicalDevice × QueueFamily) :=
  match max_by_key_last num_compute_queues
      (devices.filter fun d => d.ty = ty ∧ d.khr_storage_buffer_storage_class) with
  | some d => (d.queue_families.find? fun f => f.supports_compute).map fun q => (d, q)
  | none => none

/-- Function `find_best_physical_device` from src/lib.rs lines 350-356: try
the device classes in the order discrete, integrated, virtual, CPU, other. -/
def find_best_physical_device (devices : List PhysicalDevice) :
    Option (PhysicalDevice × QueueFamily) :=
  ((((find_best_by_type devices .DiscreteGpu).orElse
    fun _ => find_best_by_type devices .IntegratedGpu).orElse
    fun _ => find_best_by_type devices .VirtualGpu).orElse
    fun _ => find_best_by_type devices .Cpu).orElse
    fun _ => find_best_by_type devices .Other

/-!
Error flow.  The vulkano error types are external to this repository; each
is modelled abstractly as a tagged cause value, which is all the
propagation code can preserve or lose.
-/

/-- The vulkano `InstanceCreationError`, modelled by a cause tag. -/
structure InstanceCreationError where
  cause : ℕ
  deriving DecidableEq

/-- The vulkano `DeviceCreationError`, modelled by a cause tag. -/
structure DeviceCreationError where
  cause : ℕ
  deriving DecidableEq

/-- The vulkano `ComputePipelineCreationError`, modelled by a cause tag. -/
structure ComputePipelineCreationError where
  cause : ℕ
  deriving DecidableEq

/-- The vulkano `OomError`, modelled by a cause tag. -/
structure OomError where
  cause : ℕ
  deriving DecidableEq

/-- The vulkano `DeviceMemoryAllocError`, modelled by a cause tag. -/
structure DeviceMemoryAllocError where
  cause : ℕ
  deriving DecidableEq

/-- The vulkano `ImageCreationError`, modelled by a cause tag. -/
structure ImageCreationError where
  cause : ℕ
  deriving DecidableEq

/-- The vulkano `PersistentDescriptorSetBuildError`, modelled by a cause tag. -/
structure PersistentDescriptorSetBuildError where
  cause : ℕ
  deriving DecidableEq

/-- The vulkano `DispatchError`, modelled by a cause tag. -/
structure DispatchError where
  cause : ℕ
  deriving DecidableEq

/-- The vulkano command-buffer `BuildError`, modelled by a cause tag. -/
structure BuildError where
  cause : ℕ
  deriving DecidableEq

/-- The vulkano `CommandBufferExecError`, modelled by a cause tag. -/
structure CommandBufferExecError where
  cause : ℕ
  deriving DecidableEq

/-- The vulkano `FlushError` (also the error of a fence wait), modelled by
a cause tag. -/
structure FlushError where
  cause : ℕ
  deriving DecidableEq

/-- The result of running a fallible Rust code path: a normal return, a
returned error value, or a panic (`unwrap` on a failed result), which
aborts the process and hands the caller nothing. -/
inductive Outcome (ε α : Type) where
  | ok (a : α)
  | err (e : ε)
  | aborted
  deriving DecidableEq

/-- Error enum `JuliaImageError` from src/image.rs lines 132-141, one
variant per underlying failure source, with `From` conversions wrapping
each cause. -/
inductive JuliaImageError where
  | VkImageErr (e : ImageCreationError)
  | VkAllocErr (e : DeviceMemoryAllocError)
  | VkDescSetErr (e : PersistentDescriptorSetBuildError)
  | VkOomErr (e : OomError)
  | VkDispatchErr (e : DispatchError)
  | VkCmdBufBuildErr (e : BuildError)
  | VkExecErr (e : CommandBufferExecError)
  deriving DecidableEq

/-- Error enum `JuliaCreationError` from src/lib.rs lines 294-301. -/
inductive JuliaCreationError where
  | InstanceCreation (e : InstanceCreationError)
  | DeviceDiscovery
  | DeviceCreation (e : DeviceCreationError)
  | ShaderLoad (e : OomError)
  | ComputePipelineCreation (e : ComputePipelineCreationError)
  deriving DecidableEq

/-- Injected outcomes of the fallible calls inside `JuliaContext::new`
(src/lib.rs lines 87-111), in program order. -/
structure ContextSteps where
  instance_new : Except InstanceCreationError Unit
  discovery : Option Unit
  device_new : Except DeviceCreationError Unit
  shader_load : Except OomError Unit
  pipeline_new : Except ComputePipelineCreationError Unit

/-- Function `JuliaContext::new` from src/lib.rs lines 87-111 (including
`JuliaExport::new`, src/lib.rs lines 151-163, which it calls): each failure
is mapped into the matching `JuliaCreationError` variant with `map_err` /
`ok_or` and returned to the caller. -/
def JuliaContext.new (s : ContextSteps) : Except JuliaCreationError Unit := do
  match s.instance_new with
  | .error e => throw (.InstanceCreation e)
  | .ok _ =>
  match s.discovery with
  | none => throw .DeviceDiscovery
  | some _ =>
  match s.device_new with
  | .error e => throw (.DeviceCreation e)
  | .ok _ =>
  match s.shader_load with
  | .error e => throw (.ShaderLoad e)
  | .ok _ =>
  match s.pipeline_new with
  | .error e => throw (.ComputePipelineCreation e)
  | .ok _ => return ()

/-- Injected outcomes of the fallible calls inside `JuliaImage::draw_after`
(src/image.rs lines 64-95), in program order.  The two descriptor-binding
steps (`add_image`, `add_buffer`) have no payload worth modelling because
the source discards their errors with `unwrap`. -/
structure DrawSteps where
  buffer_pool_next : Except DeviceMemoryAllocError Unit
  add_image : Except Unit Unit
  add_buffer : Except Unit Unit
  desc_build : Except PersistentDescriptorSetBuildError Unit
  cmd_begin : Except OomError Unit
  dispatch : Except DispatchError Unit
  cmd_build : Except BuildError Unit
  execute : Except CommandBufferExecError Unit

/-- Method `JuliaImage::draw_after` from src/image.rs lines 64-95: the
buffer-pool allocation, descriptor-set build, command-buffer begin,
dispatch recording, command-buffer build and execution submit are
propagated with `?` through the `From` conversions into distinct
`JuliaImageError` variants; the two descriptor-binding steps are unwrapped
and abort on failure. -/
def JuliaImage.draw_after (s : DrawSteps) : Outcome JuliaImageError Unit :=
  match s.buffer_pool_next with
  | .error e => .err (.VkAllocErr e)
  | .ok _ =>
  match s.add_image with
  | .error _ => .aborted
  | .ok _ =>
  match s.add_buffer with
  | .error _ => .aborted
  | .ok _ =>
  match s.desc_build with
  | .error e => .err (.VkDescSetErr e)
  | .ok _ =>
  match s.cmd_begin with
  | .error e => .err (.VkOomErr e)
  | .ok _ =>
  match s.dispatch with
  | .error e => .err (.VkDispatchErr e)
  | .ok _ =>
  match s.cmd_build with
  | .error e => .err (.VkCmdBufBuildErr e)
  | .ok _ =>
  match s.execute with
  | .error e => .err (.VkExecErr e)
  | .ok _ => .ok ()

/-- Injected outcomes of the fallible calls inside one
`JuliaExport::export` call of src/export.rs (lines 125-169, with
`regen_cache` lines 52-89 and `command_buffer` lines 91-123), in program
order.  The first five run only when the cache is regenerated. -/
structure ExportPathSteps where
  input_buffer_alloc : Except DeviceMemoryAllocError Unit
  image_create : Except ImageCreationError Unit
  output_buffer_alloc : Except DeviceMemoryAllocError Unit
  upload_flush : Except FlushError Unit
  upload_wait : Except FlushError Unit
  desc_set_build : Except PersistentDescriptorSetBuildError Unit
  cmd_buf_build : Except OomError Unit
  execute : Except CommandBufferExecError Unit
  fence_flush : Except FlushError Unit
  fence_wait : Except FlushError Unit
  buffer_read : Except Unit Unit
  save : Except Unit Unit

/-- The control flow of one `JuliaExport::export` call of src/export.rs
with respect to failures: every fallible step in the export path —
resource allocations, the upload and execution fence waits, the readback
lock and the file save — is followed by `unwrap`, so any failure aborts
instead of reaching the caller; the error channel is `Empty` because the
function returns `()` and no error value can be handed back at all.
`regen` says whether the call misses the cache and runs `regen_cache`. -/
def exportPathOutcome (regen : Bool) (s : ExportPathSteps) : Outcome Empty Unit :=
  if regen ∧ s.input_buffer_alloc.isOk = false then .aborted
  else if regen ∧ s.image_create.isOk = false then .aborted
  else if regen ∧ s.output_buffer_alloc.isOk = false then .aborted
  else if regen ∧ s.upload_flush.isOk = false then .aborted
  else if regen ∧ s.upload_wait.isOk = false then .aborted
  else
  match s.desc_set_build with
  | .error _ => .aborted
  | .ok _ =>
  match s.cmd_buf_build with
  | .error _ => .aborted
  | .ok _ =>
  match s.execute with
  | .error _ => .aborted
  | .ok _ =>
  match s.fence_flush with
  | .error _ => .aborted
  | .ok _ =>
  match s.fence_wait with
  | .error _ => .aborted
  | .ok _ =>
  match s.buffer_read with
  | .error _ => .aborted
  | .ok _ =>
  match s.save with
  | .error _ => .aborted
  | .ok _ => .ok ()

/-- An `ExportPathSteps` value in which every step succeeds. -/
def allStepsOk : ExportPathSteps :=
  ⟨.ok (), .ok (), .ok (), .ok (), .ok (), .ok (), .ok (), .ok (), .ok (), .ok (), .ok (), .ok ()⟩

/-- A `DrawSteps` value in which every step succeeds. -/
def allDrawOk : DrawSteps :=
  ⟨.ok (), .ok (), .ok (), .ok (), .ok (), .ok (), .ok (), .ok ()⟩

/-- Modelled from the spec: the linear-light to display-encoded (gamma)
conversion that the specification requires on readback does not appear
anywhere in the code, and the repository gives no formula for it.  Per the
glossary entry "Linear-light vs. display-encoded color" and the round-trip
property of section 8, a display (gamma) encoding of 8-bit channel values
fixes the endpoints and strictly brightens every interior value (for the
standard sRGB encoding, for instance, linear 64/255 encodes to about
137/255); this predicate captures exactly those properties. -/
def IsGammaEncoding (enc : ℕ → ℕ) : Prop :=
  enc 0 = 0 ∧ enc 255 = 255 ∧ ∀ v, 0 < v → v < 255 → v < enc v

/-!
Concrete sample values, used to evaluate the models on specific inputs.
`sampleData` is the `default_state` of src/interface.rs lines 251-261
(black→white→white gradient, midpoints `[0, 0.25, 1]`, `n = 2`,
`c = 0.2 + 0i`, 100 iterations, extents `(3.6, 3.6)`).
-/

/-- The `default_state` parameter set of src/interface.rs lines 251-261. -/
def sampleData : Ifc.JuliaData where
  color := ![⟨0, 0, 0, 0⟩, ⟨1, 1, 1, 1⟩, ⟨1, 1, 1, 1⟩]
  color_midpoint := ![0, 1/4, 1]
  n := 2
  c := ⟨1/5, 0⟩
  iters := 100
  center := ⟨0, 0⟩
  extents := ⟨18/5, 18/5⟩

/-- An interactive state holding `sampleData`, with the initial active
indices of `JuliaInterface::new` (src/interface.rs lines 628-629) and an
export request pending. -/
def sampleState : Ifc.JuliaState where
  data := sampleData
  mouse_state := ⟨⟨0, 0⟩, false⟩
  hsv_colors := ![⟨0, 0, 0⟩, ⟨0, 0, 1⟩, ⟨0, 0, 1⟩]
  active_color := 0
  active_midpt := 1
  close_requested := false
  export_dimensions := ⟨800, 800⟩
  export_requested := true

/-- A state whose midpoint array `[0, 1, 1]` lies entirely inside `[0, 1]`,
with the middle midpoint active. -/
def topState : Ifc.JuliaState :=
  { sampleState with
    data := { sampleData with color_midpoint := ![0, 1, 1] }
    active_midpt := 1 }

/-
Helper lemmas for the midpoint-adjustment proofs.
-/

theorem ite_gt_eq_min (a b : ℚ) : (if a > b then b else a) = min a b := by
  rcases le_or_lt a b with h | h
  · rw [if_neg (not_lt.mpr h), min_eq_left h]
  · rw [if_pos h, min_eq_right h.le]

theorem ite_lt_eq_max (a b : ℚ) : (if a < b then b else a) = max a b := by
  rcases le_or_lt b a with h | h
  · rw [if_neg (not_lt.mpr h), max_eq_left h]
  · rw [if_pos h, max_eq_right h.le]

theorem adjustedMidpts_mono (m : Fin 3 → ℚ) (idx : Fin 3) (amount : ℚ)
    (hmono : ∀ i j : Fin 3, i ≤ j → m i ≤ m j) (i j : Fin 3) (hij : i ≤ j) :
    Ifc.adjustedMidpts m idx amount i ≤ Ifc.adjustedMidpts m idx amount j := by
  have hm := hmono i j hij
  unfold Ifc.adjustedMidpts
  simp only [ite_gt_eq_min, ite_lt_eq_max]
  rcases lt_trichotomy i idx with hi | hi | hi
  · rw [if_pos hi]
    rcases lt_trichotomy j idx with hj | hj | hj
    · rw [if_pos hj]
      exact min_le_min hm le_rfl
    · rw [if_neg (by rw [hj]; exact lt_irrefl idx), if_neg (by rw [hj]; exact lt_irrefl idx)]
      exact min_le_right _ _
    · rw [if_neg (not_lt.mpr hj.le), if_pos hj]
      exact (min_le_right _ _).trans (le_max_right _ _)
  · rw [if_neg (by rw [hi]; exact lt_irrefl idx), if_neg (by rw [hi]; exact lt_irrefl idx)]
    rcases lt_trichotomy j idx with hj | hj | hj
    · exact absurd ((hi ▸ hij).trans_lt hj) (lt_irrefl idx)
    · rw [if_neg (by rw [hj]; exact lt_irrefl idx), if_neg (by rw [hj]; exact lt_irrefl idx)]
    · rw [if_neg (not_lt.mpr hj.le), if_pos hj]
      exact le_max_right _ _
  · rw [if_neg (not_lt.mpr hi.le), if_pos hi]
    have hj : idx < j := hi.trans_le hij
    rw [if_neg (not_lt.mpr hj.le), if_pos hj]
    exact max_le_max hm le_rfl

/-- C8: for every midpoint array that is monotonically non-decreasing in
index order and every adjustment amount, `JuliaState::adjust_active_midpt`
at the active index yields an array that is still monotonically
non-decreasing — no two midpoints cross. -/
theorem adjust_active_midpt_preserves_monotone (s : Ifc.JuliaState) (amount : ℚ)
    (hmono : ∀ i j : Fin 3, i ≤ j → s.data.color_midpoint i ≤ s.data.color_midpoint j)
    (i j : Fin 3) (hij : i ≤ j) :
    (s.adjust_active_midpt amount).data.color_midpoint i ≤
      (s.adjust_active_midpt amount).data.color_midpoint j :=
  adjustedMidpts_mono s.data.color_midpoint s.active_midpt amount hmono i j hij

/-- Witness for C8: adjusting the default midpoint array `[0, 0.25, 1]` at
the active index by the U-key increment keeps stop 0 at or below stop 1. -/
theorem adjust_active_midpt_preserves_monotone_witness :
    (sampleState.adjust_active_midpt (1/100)).data.color_midpoint 0 ≤
      (sampleState.adjust_active_midpt (1/100)).data.color_midpoint 1 :=
  adjust_active_midpt_preserves_monotone sampleState (1/100)
    (by intro i j hij; fin_cases i <;> fin_cases j <;>
      simp_all [sampleState, sampleData] <;> norm_num)
    0 1 (by decide)

/-- C9 counterexample: all three midpoints of `topState` lie in `[0, 1]`,
yet a single U-key adjustment (`adjust_active_midpt 0.01`, src/interface.rs
line 363) pushes the active midpoint to 1.01 — the code never clamps, so
the stated invariant fails after one application. -/
theorem adjust_active_midpt_leaves_unit_interval :
    (∀ i : Fin 3, 0 ≤ topState.data.color_midpoint i ∧
      topState.data.color_midpoint i ≤ 1) ∧
    ¬ (∀ i : Fin 3, 0 ≤ (topState.adjust_active_midpt (1/100)).data.color_midpoint i ∧
      (topState.adjust_active_midpt (1/100)).data.color_midpoint i ≤ 1) := by
  constructor
  · intro i
    fin_cases i <;> constructor <;> norm_num [topState, sampleState, sampleData]
  · intro h
    have h1 := (h 1).2
    simp [topState, sampleState, sampleData, Ifc.JuliaState.adjust_active_midpt,
      Ifc.adjustedMidpts] at h1
    norm_num at h1

/-- C9 (amended): a midpoint adjustment keeps every entry inside `[0, 1]`
provided the adjusted value `m[idx] + amount` itself lies in `[0, 1]` —
every new entry is either an old entry or that adjusted value.  Without
that proviso the bound fails, because the code performs no clamping. -/
theorem adjust_active_midpt_range (s : Ifc.JuliaState) (amount : ℚ)
    (h01 : ∀ i : Fin 3, 0 ≤ s.data.color_midpoint i ∧ s.data.color_midpoint i ≤ 1)
    (hadj : 0 ≤ s.data.color_midpoint s.active_midpt + amount ∧
      s.data.color_midpoint s.active_midpt + amount ≤ 1)
    (i : Fin 3) :
    0 ≤ (s.adjust_active_midpt amount).data.color_midpoint i ∧
      (s.adjust_active_midpt amount).data.color_midpoint i ≤ 1 := by
  have hval : (s.adjust_active_midpt amount).data.color_midpoint i =
      Ifc.adjustedMidpts s.data.color_midpoint s.active_midpt amount i := rfl
  rw [hval]
  simp only [Ifc.adjustedMidpts]
  split_ifs <;> first | exact hadj | exact h01 i

/-- Witness for the amended C9: a J-key adjustment of the default state
keeps the middle midpoint inside `[0, 1]`. -/
theorem adjust_active_midpt_range_witness :
    0 ≤ (sampleState.adjust_active_midpt (-(1/100))).data.color_midpoint 1 ∧
      (sampleState.adjust_active_midpt (-(1/100))).data.color_midpoint 1 ≤ 1 :=
  adjust_active_midpt_range sampleState (-(1/100))
    (by intro i; fin_cases i <;> constructor <;> norm_num [sampleState, sampleData])
    (by constructor <;> norm_num [sampleState, sampleData]) 1

/-- C10: when the E-key flag is set, the per-frame export check calls the
export cache once with the stored export dimensions and a copy of the
on-screen parameters, and the only state change is that the flag is
cleared; the copy differs from the on-screen parameters exactly by
rescaling one viewport extent by the aspect ratio (`y` by `height/width`
when `width < height`, `x` by `width/height` when `height < width`,
nothing when they are equal), so the on-screen viewport extents are never
modified by exporting. -/
theorem interactive_export_effect (s : Ifc.JuliaState)
    (hreq : s.export_requested = true)
    (hw : 0 < s.export_dimensions.width) (hh : 0 < s.export_dimensions.height) :
    Ifc.runExportCheck s =
      (some ⟨s.export_dimensions, Ifc.exportData s⟩,
        { s with export_requested := false }) ∧
    Ifc.exportData s =
      (if s.export_dimensions.width < s.export_dimensions.height then
        { s.data with extents := ⟨s.data.extents.x,
            s.data.extents.y *
              ((s.export_dimensions.height : ℚ) / (s.export_dimensions.width : ℚ))⟩ }
       else if s.export_dimensions.height < s.export_dimensions.width then
        { s.data with extents := ⟨s.data.extents.x *
              ((s.export_dimensions.width : ℚ) / (s.export_dimensions.height : ℚ)),
            s.data.extents.y⟩ }
       else s.data) := by
  constructor
  · unfold Ifc.runExportCheck Ifc.JuliaInterface.doExport
    rw [if_pos (by rw [hreq])]
  · unfold Ifc.exportData
    simp only
    split_ifs <;> first | rfl | (exfalso; omega)

/-- Witness for C10: the sample state exports at 800×800 with its
parameters unscaled and only its flag cleared. -/
theorem interactive_export_effect_witness :
    Ifc.runExportCheck sampleState =
      (some ⟨sampleState.export_dimensions, Ifc.exportData sampleState⟩,
        { sampleState with export_requested := false }) ∧
    Ifc.exportData sampleState =
      (if sampleState.export_dimensions.width < sampleState.export_dimensions.height then
        { sampleState.data with extents := ⟨sampleState.data.extents.x,
            sampleState.data.extents.y *
              ((sampleState.export_dimensions.height : ℚ) /
                (sampleState.export_dimensions.width : ℚ))⟩ }
       else if sampleState.export_dimensions.height < sampleState.export_dimensions.width then
        { sampleState.data with extents := ⟨sampleState.data.extents.x *
              ((sampleState.export_dimensions.width : ℚ) /
                (sampleState.export_dimensions.height : ℚ)),
            sampleState.data.extents.y⟩ }
       else sampleState.data) :=
  interactive_export_effect sampleState rfl (by norm_num [sampleState])
    (by norm_num [sampleState])

/-!
Concrete inputs and evaluation lemmas for the export-cache models.
-/

/-- The default parameter set in crate-root form (single midpoint 0.25, the
default of the gradient parser in src/main.rs line 183). -/
def libData : JuliaData where
  color := ![⟨0, 0, 0, 0⟩, ⟨1, 1, 1, 1⟩, ⟨1, 1, 1, 1⟩]
  color_midpoint := 1/4
  n := 2
  c := ⟨1/5, 0⟩
  iters := 100
  center := ⟨0, 0⟩
  extents := ⟨18/5, 18/5⟩

/-- 8×8 pixels. -/
def dims8 : ImgDimensions := ⟨8, 8⟩

/-- 16×16 pixels. -/
def dims16 : ImgDimensions := ⟨16, 16⟩

/-- 1×1 pixel. -/
def dims1 : ImgDimensions := ⟨1, 1⟩

/-- A GPU execution model that fills the output buffer with zeros. -/
def gpuZero : GpuModel := fun dims _ => List.replicate (dims.width * dims.height * 4) 0

/-- A GPU execution model producing a single linear mid-gray RGBA8 pixel
(channel value 64). -/
def gpuGray : GpuModel := fun _ _ => [64, 64, 64, 255]

/-
Evaluation lemmas: one export call of each revision, split by the cache
decision the source makes.
-/

theorem ExportRs.doExport_none (gpu : GpuModel) (dims : ImgDimensions) (data : JuliaData) :
    ExportRs.doExport gpu none dims data =
      { cache := some { (ExportRs.regen_cache dims data).1 with output_buffer := gpu dims data }
        allocs := (ExportRs.regen_cache dims data).2 ++
          (ExportRs.command_buffer (ExportRs.regen_cache dims data).1).2
        file := ImageBuffer.from_raw dims.width dims.height (gpu dims data) } := rfl

theorem ExportRs.doExport_hit (gpu : GpuModel) (c : ExportRs.JuliaExportCache)
    (dims : ImgDimensions) (data : JuliaData) (h1 : c.data = data) (h2 : c.dims = dims) :
    ExportRs.doExport gpu (some c) dims data =
      { cache := some { c with output_buffer := gpu dims data }
        allocs := (ExportRs.command_buffer c).2
        file := ImageBuffer.from_raw dims.width dims.height (gpu dims data) } := by
  subst h1
  subst h2
  simp only [ExportRs.doExport]
  rw [if_neg (by simp)]
  rfl

theorem ExportRs.doExport_miss (gpu : GpuModel) (c : ExportRs.JuliaExportCache)
    (dims : ImgDimensions) (data : JuliaData) (h : c.data ≠ data ∨ c.dims ≠ dims) :
    ExportRs.doExport gpu (some c) dims data =
      { cache := some { (ExportRs.regen_cache dims data).1 with output_buffer := gpu dims data }
        allocs := (ExportRs.regen_cache dims data).2 ++
          (ExportRs.command_buffer (ExportRs.regen_cache dims data).1).2
        file := ImageBuffer.from_raw dims.width dims.height (gpu dims data) } := by
  simp only [ExportRs.doExport]
  rw [if_pos h]
  rfl

theorem LibRs.lib_doExport_none (gpu : GpuModel) (dims : ImgDimensions) (data : JuliaData) :
    LibRs.doExport gpu none dims data =
      { cache := some { (LibRs.regen_cache dims data).1 with output_buffer := gpu dims data }
        allocs := (LibRs.regen_cache dims data).2
        file := ImageBuffer.from_raw dims.width dims.height (gpu dims data) } := by
  unfold LibRs.doExport
  rfl

theorem LibRs.lib_doExport_hit (gpu : GpuModel) (c : LibRs.JuliaExportCache)
    (dims : ImgDimensions) (data : JuliaData) (h1 : c.data = data) :
    LibRs.doExport gpu (some c) dims data =
      { cache := some { c with output_buffer := gpu c.dims c.data }
        allocs := []
        file := ImageBuffer.from_raw c.dims.width c.dims.height (gpu c.dims c.data) } := by
  subst h1
  simp only [LibRs.doExport]
  rw [if_neg (by simp)]
  rfl

theorem LibRs.lib_doExport_miss (gpu : GpuModel) (c : LibRs.JuliaExportCache)
    (dims : ImgDimensions) (data : JuliaData) (h : c.data ≠ data) :
    LibRs.doExport gpu (some c) dims data =
      { cache := some { (LibRs.regen_cache dims data).1 with output_buffer := gpu dims data }
        allocs := (LibRs.regen_cache dims data).2
        file := ImageBuffer.from_raw dims.width dims.height (gpu dims data) } := by
  simp only [LibRs.doExport]
  rw [if_pos h]
  rfl

theorem dims8_ne_dims16 : dims8 ≠ dims16 := by
  intro h
  have hw := congrArg ImgDimensions.width h
  simp [dims8, dims16] at hw

theorem from_raw_eq_some (w h : ℕ) (buf : List ℕ) (hlen : w * h * 4 ≤ buf.length) :
    ImageBuffer.from_raw w h buf = some ⟨w, h, buf⟩ := by
  unfold ImageBuffer.from_raw
  rw [if_pos hlen]

theorem gpuZero_length (d : ImgDimensions) (dt : JuliaData) :
    (gpuZero d dt).length = d.width * d.height * 4 := by
  unfold gpuZero
  rw [List.length_replicate]

/-- C1: evaluation of the two export revisions at a dimension-only change.
A first export populates the cache at 8×8; a second export then requests
16×16 with identical parameter data.  The src/lib.rs revision
(`JuliaExport::export`, src/lib.rs lines 230-251) compares only the
parameter data, so it performs no allocation at all, keeps the stale 8×8
key, and the dimension change is not reflected; the src/export.rs revision
(src/export.rs lines 125-146) also compares dimensions and regenerates the
full entry — fresh input buffer, fresh 16×16 image, fresh 1024-byte output
buffer — under the requested key. -/
theorem lib_export_ignores_dimension_change :
    (LibRs.doExport gpuZero (some (LibRs.regen_cache dims8 libData).1) dims16 libData).allocs
      = [] ∧
    ((LibRs.doExport gpuZero (some (LibRs.regen_cache dims8 libData).1) dims16 libData).cache.map
      LibRs.JuliaExportCache.key) = some (dims8, libData) ∧
    (ExportRs.doExport gpuZero (some (ExportRs.regen_cache dims8 libData).1) dims16 libData).allocs
      = [GpuAlloc.inputBuffer libData.into_shader_data, GpuAlloc.storageImage 16 16,
         GpuAlloc.outputBuffer 1024, GpuAlloc.descriptorSet, GpuAlloc.commandBuffer (2, 2, 1)] ∧
    ((ExportRs.doExport gpuZero (some (ExportRs.regen_cache dims8 libData).1) dims16 libData).cache.map
      ExportRs.JuliaExportCache.key) = some (dims16, libData) := by
  have hlib := LibRs.lib_doExport_hit gpuZero (LibRs.regen_cache dims8 libData).1 dims16 libData rfl
  have hex := ExportRs.doExport_miss gpuZero (ExportRs.regen_cache dims8 libData).1 dims16 libData
    (Or.inr fun hEq => dims8_ne_dims16 hEq)
  rw [hlib, hex]
  exact ⟨rfl, rfl, rfl, rfl⟩

/-- C2 counterexample: on a cache hit (identical dimensions and data), the
src/export.rs export call still performs GPU calls beyond execution — it
builds a fresh descriptor set and records a fresh command buffer — so the
stated "no new GPU resource allocation" on a match does not hold. -/
theorem export_cache_hit_allocates :
    (ExportRs.doExport gpuZero (some (ExportRs.regen_cache dims8 libData).1) dims8 libData).allocs =
      [GpuAlloc.descriptorSet, GpuAlloc.commandBuffer (1, 1, 1)] ∧
    (ExportRs.doExport gpuZero (some (ExportRs.regen_cache dims8 libData).1) dims8 libData).allocs
      ≠ [] := by
  have h := ExportRs.doExport_hit gpuZero (ExportRs.regen_cache dims8 libData).1 dims8 libData rfl rfl
  rw [h]
  exact ⟨rfl, by simp [ExportRs.command_buffer]⟩

/-- C2 (amended): the src/export.rs export cache is a single-slot state
machine.  It starts Empty; after every export call it is Populated with
exactly the requested key; on a key match the stored entry (input buffer,
image, output buffer) is reused and no buffer or image is allocated —
though a fresh descriptor set and command buffer are recorded on every
call — and on a mismatch or an empty cache the whole entry is regenerated
under the requested key. -/
theorem export_cache_state_machine (gpu : GpuModel)
    (cached : Option ExportRs.JuliaExportCache) (dims : ImgDimensions) (data : JuliaData) :
    ExportRs.initialCache = none ∧
    ((ExportRs.doExport gpu cached dims data).cache.map ExportRs.JuliaExportCache.key =
      some (dims, data)) ∧
    (∀ c, cached = some c → c.dims = dims → c.data = data →
      (ExportRs.doExport gpu cached dims data).cache =
        some { c with output_buffer := gpu dims data } ∧
      (ExportRs.doExport gpu cached dims data).allocs =
        [GpuAlloc.descriptorSet,
         GpuAlloc.commandBuffer (dims.width / 8, dims.height / 8, 1)]) ∧
    (∀ c, cached = some c → ¬ (c.dims = dims ∧ c.data = data) →
      (ExportRs.doExport gpu cached dims data).allocs =
        [GpuAlloc.inputBuffer data.into_shader_data,
         GpuAlloc.storageImage dims.width dims.height,
         GpuAlloc.outputBuffer (dims.width * dims.height * 4),
         GpuAlloc.descriptorSet,
         GpuAlloc.commandBuffer (dims.width / 8, dims.height / 8, 1)]) ∧
    (cached = none →
      (ExportRs.doExport gpu cached dims data).allocs =
        [GpuAlloc.inputBuffer data.into_shader_data,
         GpuAlloc.storageImage dims.width dims.height,
         GpuAlloc.outputBuffer (dims.width * dims.height * 4),
         GpuAlloc.descriptorSet,
         GpuAlloc.commandBuffer (dims.width / 8, dims.height / 8, 1)]) := by
  refine ⟨rfl, ?_, ?_, ?_, ?_⟩
  · cases cached with
    | none => rw [ExportRs.doExport_none]; rfl
    | some c =>
      by_cases h1 : c.data = data
      · by_cases h2 : c.dims = dims
        · rw [ExportRs.doExport_hit gpu c dims data h1 h2]
          simp [ExportRs.JuliaExportCache.key, h1, h2]
        · rw [ExportRs.doExport_miss gpu c dims data (Or.inr h2)]; rfl
      · rw [ExportRs.doExport_miss gpu c dims data (Or.inl h1)]; rfl
  · rintro c rfl h2 h1
    rw [ExportRs.doExport_hit gpu c dims data h1 h2]
    refine ⟨rfl, ?_⟩
    rw [← h2]
    rfl
  · rintro c rfl hnot
    have hcond : c.data ≠ data ∨ c.dims ≠ dims := by
      by_cases h1 : c.data = data
      · exact Or.inr fun h2 => hnot ⟨h2, h1⟩
      · exact Or.inl h1
    rw [ExportRs.doExport_miss gpu c dims data hcond]
    rfl
  · rintro rfl
    rw [ExportRs.doExport_none]
    rfl

/-- Witness for the amended C2: a cache hit at 16×16 reuses the stored
entry (only the output-buffer contents change) and records exactly a
descriptor set and a command buffer. -/
theorem export_cache_state_machine_witness :
    (ExportRs.doExport gpuZero (some (ExportRs.regen_cache dims16 libData).1) dims16 libData).cache =
      some { (ExportRs.regen_cache dims16 libData).1 with
        output_buffer := gpuZero dims16 libData } ∧
    (ExportRs.doExport gpuZero (some (ExportRs.regen_cache dims16 libData).1) dims16 libData).allocs =
      [GpuAlloc.descriptorSet,
       GpuAlloc.commandBuffer (dims16.width / 8, dims16.height / 8, 1)] :=
  (export_cache_state_machine gpuZero (some (ExportRs.regen_cache dims16 libData).1)
    dims16 libData).2.2.1 (ExportRs.regen_cache dims16 libData).1 rfl rfl rfl

/-- C5: at a dimension-only change the src/lib.rs revision saves a file
with the stale cached dimensions (16×16) instead of the requested 8×8 —
its `export_core` (src/lib.rs lines 253-272) builds the image from
`cache.dims`, which its hit test never compares — while the src/export.rs
revision saves exactly the requested dimensions; the payload is always
RGBA8, four bytes per pixel. -/
theorem lib_export_file_keeps_stale_dimensions :
    ((LibRs.doExport gpuZero (some (LibRs.regen_cache dims16 libData).1) dims8 libData).file.map
      RawImage.width) = some 16 ∧
    ((LibRs.doExport gpuZero (some (LibRs.regen_cache dims16 libData).1) dims8 libData).file.map
      RawImage.height) = some 16 ∧
    ((ExportRs.doExport gpuZero (some (ExportRs.regen_cache dims16 libData).1) dims8 libData).file.map
      RawImage.width) = some 8 ∧
    ((ExportRs.doExport gpuZero (some (ExportRs.regen_cache dims16 libData).1) dims8 libData).file.map
      RawImage.height) = some 8 ∧
    ((LibRs.doExport gpuZero (some (LibRs.regen_cache dims16 libData).1) dims8 libData).file.map
      fun f => f.data.length) = some (16 * 16 * 4) := by
  have hlib := LibRs.lib_doExport_hit gpuZero (LibRs.regen_cache dims16 libData).1 dims8 libData rfl
  have hex := ExportRs.doExport_miss gpuZero (ExportRs.regen_cache dims16 libData).1 dims8 libData
    (Or.inr fun hEq => dims8_ne_dims16 (Eq.symm hEq))
  rw [hlib, hex]
  have hlen16 := le_of_eq (gpuZero_length (LibRs.regen_cache dims16 libData).1.dims
    (LibRs.regen_cache dims16 libData).1.data).symm
  have hlen8 : dims8.width * dims8.height * 4 ≤ (gpuZero dims8 libData).length :=
    le_of_eq (gpuZero_length dims8 libData).symm
  refine ⟨?_, ?_, ?_, ?_, ?_⟩
  · rw [from_raw_eq_some _ _ _ hlen16]
    rfl
  · rw [from_raw_eq_some _ _ _ hlen16]
    rfl
  · rw [from_raw_eq_some _ _ _ hlen8]
    rfl
  · rw [from_raw_eq_some _ _ _ hlen8]
    rfl
  · rw [from_raw_eq_some _ _ _ hlen16]
    show some ((gpuZero (LibRs.regen_cache dims16 libData).1.dims
      (LibRs.regen_cache dims16 libData).1.data).length) = some (16 * 16 * 4)
    rw [gpuZero_length]
    rfl

/-- C3 counterexample: for the linear mid-gray pixel `[64, 64, 64, 255]`
read back from the output buffer, the saved bytes are exactly
`[64, 64, 64, 255]` — no function with the defining properties of a
linear-to-display (gamma) encoding can produce them, because any such
encoding strictly brightens 64. -/
theorem export_core_applies_no_gamma_encoding :
    ¬ ∃ enc : ℕ → ℕ, IsGammaEncoding enc ∧
      (LibRs.export_core gpuGray (LibRs.regen_cache dims1 libData).1).file =
        some ⟨1, 1, List.map enc [64, 64, 64, 255]⟩ := by
  rintro ⟨enc, hgamma, hfile⟩
  have hf : (LibRs.export_core gpuGray (LibRs.regen_cache dims1 libData).1).file =
      some ⟨1, 1, [64, 64, 64, 255]⟩ := by
    simp [LibRs.export_core, LibRs.regen_cache, ImageBuffer.from_raw, gpuGray, dims1]
  rw [hf] at hfile
  have hdata : ([64, 64, 64, 255] : List ℕ) = List.map enc [64, 64, 64, 255] :=
    congrArg RawImage.data (Option.some.inj hfile)
  simp only [List.map] at hdata
  injection hdata with h64 hrest
  have hlt := hgamma.2.2 64 (by norm_num) (by norm_num)
  omega

/-- C3 (amended): the export path applies no color conversion on readback:
both `export_core` revisions hand the bytes read back from the output
buffer unchanged to the image constructor, so the saved file holds exactly
the bytes the GPU produced, in linear-light form. -/
theorem export_core_writes_readback_bytes_verbatim (gpu : GpuModel)
    (cE : ExportRs.JuliaExportCache) (cL : LibRs.JuliaExportCache)
    (hE : cE.dims.width * cE.dims.height * 4 ≤ (gpu cE.dims cE.data).length)
    (hL : cL.dims.width * cL.dims.height * 4 ≤ (gpu cL.dims cL.data).length) :
    (ExportRs.export_core gpu cE).file =
      some ⟨cE.dims.width, cE.dims.height, gpu cE.dims cE.data⟩ ∧
    (LibRs.export_core gpu cL).file =
      some ⟨cL.dims.width, cL.dims.height, gpu cL.dims cL.data⟩ := by
  constructor
  · show ImageBuffer.from_raw cE.dims.width cE.dims.height (gpu cE.dims cE.data) = _
    unfold ImageBuffer.from_raw
    rw [if_pos hE]
  · show ImageBuffer.from_raw cL.dims.width cL.dims.height (gpu cL.dims cL.data) = _
    unfold ImageBuffer.from_raw
    rw [if_pos hL]

/-- Witness for the amended C3: an 8×8 export writes the 256 zero bytes of
the readback buffer verbatim. -/
theorem export_core_writes_readback_bytes_verbatim_witness :
    (ExportRs.export_core gpuZero (ExportRs.regen_cache dims8 libData).1).file =
      some ⟨(ExportRs.regen_cache dims8 libData).1.dims.width,
        (ExportRs.regen_cache dims8 libData).1.dims.height,
        gpuZero (ExportRs.regen_cache dims8 libData).1.dims
          (ExportRs.regen_cache dims8 libData).1.data⟩ ∧
    (LibRs.export_core gpuZero (LibRs.regen_cache dims8 libData).1).file =
      some ⟨(LibRs.regen_cache dims8 libData).1.dims.width,
        (LibRs.regen_cache dims8 libData).1.dims.height,
        gpuZero (LibRs.regen_cache dims8 libData).1.dims
          (LibRs.regen_cache dims8 libData).1.data⟩ :=
  export_core_writes_readback_bytes_verbatim gpuZero
    (ExportRs.regen_cache dims8 libData).1 (LibRs.regen_cache dims8 libData).1
    (le_of_eq (gpuZero_length (ExportRs.regen_cache dims8 libData).1.dims
      (ExportRs.regen_cache dims8 libData).1.data).symm)
    (le_of_eq (gpuZero_length (LibRs.regen_cache dims8 libData).1.dims
      (LibRs.regen_cache dims8 libData).1.data).symm)

/-- C4 counterexample: for a 12×8 image the dispatch is 1×1×1 workgroups —
integer truncation, not the claimed ceiling ceil(12/8) = 2 — and the
in-range pixel (8, 0) is covered by no dispatched thread. -/
theorem dispatch_truncates_width :
    dispatch_group_counts ⟨12, 8⟩ = (1, 1, 1) ∧
    (1 : ℕ) ≠ (12 + 7) / 8 ∧
    (8 < 12 ∧ 0 < 8) ∧
    ¬ coveredByDispatch ⟨12, 8⟩ 8 0 := by
  refine ⟨rfl, by norm_num, by norm_num, ?_⟩
  rintro ⟨gx, gy, tx, ty, hgx, hgy, htx, hty, hx, hy⟩
  simp only [dispatch_group_counts] at hgx hgy
  omega

/-- C4 (amended): every dispatch site of the repository sizes the dispatch
as `floor(width/8) × floor(height/8) × 1` workgroups of 8×8 threads
(truncating `u32` division), which covers every pixel of the image exactly
when both dimensions are divisible by 8; trailing rows and columns beyond
the last full workgroup are not covered otherwise. -/
theorem dispatch_floor_covers_divisible (dims : ImgDimensions)
    (hw : 8 ∣ dims.width) (hh : 8 ∣ dims.height) (x y : ℕ)
    (hx : x < dims.width) (hy : y < dims.height) :
    dispatch_group_counts dims = (dims.width / 8, dims.height / 8, 1) ∧
    (∀ c : ExportRs.JuliaExportCache,
      (ExportRs.command_buffer c).1.dispatch = dispatch_group_counts c.dims) ∧
    (∀ d : ImgDimensions, ∀ dt : JuliaData,
      (LibRs.regen_cache d dt).1.command_buffer.dispatch = dispatch_group_counts d) ∧
    coveredByDispatch dims x y := by
  refine ⟨rfl, fun c => rfl, fun d dt => rfl, ?_⟩
  refine ⟨x / 8, y / 8, x % 8, y % 8, ?_, ?_, ?_, ?_, ?_, ?_⟩ <;>
    (try simp only [dispatch_group_counts]) <;> omega

/-- Witness for the amended C4: at 16×8, pixel (9, 3) is covered. -/
theorem dispatch_floor_covers_divisible_witness :
    coveredByDispatch ⟨16, 8⟩ 9 3 :=
  (dispatch_floor_covers_divisible ⟨16, 8⟩ (by norm_num) (by norm_num) 9 3
    (by norm_num) (by norm_num)).2.2.2

/-- A `ContextSteps` value in which every step succeeds. -/
def ctxAllOk : ContextSteps :=
  ⟨.ok (), some (), .ok (), .ok (), .ok ()⟩

/-- C6 counterexample: a fence-wait failure inside the export path does not
surface to the caller as an error value — the call aborts (panics on
`unwrap`); its error channel is `Empty`, so no error value can be handed
back at all.  The same holds for a resource-allocation failure during
cache regeneration. -/
theorem export_path_failures_abort :
    exportPathOutcome false { allStepsOk with fence_wait := .error ⟨7⟩ } = .aborted ∧
    exportPathOutcome true { allStepsOk with input_buffer_alloc := .error ⟨3⟩ } = .aborted ∧
    Outcome.aborted ≠ (Outcome.ok () : Outcome Empty Unit) := by
  refine ⟨rfl, rfl, by simp⟩

/-- C6 (amended): device-context creation and the per-frame compute draw
path return distinct error values preserving the original cause through
the declared error enums; but the two descriptor-binding steps of the draw
path and every fallible step of the export path are followed by `unwrap`
and abort instead of returning an error value — the export path can only
succeed or abort, never return an error. -/
theorem error_propagation_policy :
    (∀ e, JuliaContext.new { ctxAllOk with instance_new := .error e } =
      .error (.InstanceCreation e)) ∧
    JuliaContext.new { ctxAllOk with discovery := none } = .error .DeviceDiscovery ∧
    (∀ e, JuliaContext.new { ctxAllOk with device_new := .error e } =
      .error (.DeviceCreation e)) ∧
    (∀ e, JuliaContext.new { ctxAllOk with shader_load := .error e } =
      .error (.ShaderLoad e)) ∧
    (∀ e, JuliaContext.new { ctxAllOk with pipeline_new := .error e } =
      .error (.ComputePipelineCreation e)) ∧
    JuliaContext.new ctxAllOk = .ok () ∧
    (∀ e, JuliaImage.draw_after { allDrawOk with buffer_pool_next := .error e } =
      .err (.VkAllocErr e)) ∧
    (∀ e, JuliaImage.draw_after { allDrawOk with desc_build := .error e } =
      .err (.VkDescSetErr e)) ∧
    (∀ e, JuliaImage.draw_after { allDrawOk with cmd_begin := .error e } =
      .err (.VkOomErr e)) ∧
    (∀ e, JuliaImage.draw_after { allDrawOk with dispatch := .error e } =
      .err (.VkDispatchErr e)) ∧
    (∀ e, JuliaImage.draw_after { allDrawOk with cmd_build := .error e } =
      .err (.VkCmdBufBuildErr e)) ∧
    (∀ e, JuliaImage.draw_after { allDrawOk with execute := .error e } =
      .err (.VkExecErr e)) ∧
    JuliaImage.draw_after { allDrawOk with add_image := .error () } = .aborted ∧
    JuliaImage.draw_after { allDrawOk with add_buffer := .error () } = .aborted ∧
    (∀ e, exportPathOutcome false { allStepsOk with fence_flush := .error e } = .aborted) ∧
    (∀ e, exportPathOutcome false { allStepsOk with fence_wait := .error e } = .aborted) ∧
    (∀ e, exportPathOutcome true { allStepsOk with input_buffer_alloc := .error e } = .aborted) ∧
    (∀ e, exportPathOutcome true { allStepsOk with image_create := .error e } = .aborted) ∧
    (∀ e, exportPathOutcome true { allStepsOk with output_buffer_alloc := .error e } = .aborted) ∧
    (∀ e, exportPathOutcome true { allStepsOk with upload_wait := .error e } = .aborted) ∧
    (∀ regen s, exportPathOutcome regen s = .ok () ∨ exportPathOutcome regen s = .aborted) := by
  refine ⟨fun e => rfl, rfl, fun e => rfl, fun e => rfl, fun e => rfl, rfl,
    fun e => rfl, fun e => rfl, fun e => rfl, fun e => rfl, fun e => rfl, fun e => rfl,
    rfl, rfl, fun e => rfl, fun e => rfl, fun e => rfl, fun e => rfl, fun e => rfl,
    fun e => rfl, ?_⟩
  intro regen s
  rcases h : exportPathOutcome regen s with a | e | _
  · cases a
    exact Or.inl rfl
  · exact e.elim
  · exact Or.inr rfl

/-!
Device discovery (C7): properties of `max_by_key_last`,
`num_compute_queues`, `find_best_by_type` and the class-ordered chain.
-/

/-- The position of a device class in the selection order of
`find_best_physical_device` (lower ranks are tried first). -/
def classRank : PhysicalDeviceType → ℕ
  | .DiscreteGpu => 0
  | .IntegratedGpu => 1
  | .VirtualGpu => 2
  | .Cpu => 3
  | .Other => 4

/-- A device can serve the compute workload: it supports device-local
storage buffers and exposes a compute-capable queue family. -/
def qualifies (d : PhysicalDevice) : Prop :=
  d.khr_storage_buffer_storage_class = true ∧
    ∃ f ∈ d.queue_families, f.supports_compute = true

theorem max_by_key_go (key : α → ℕ) (l : List α) (a : α) :
    ∃ b, List.foldl (maxStep key) (some a) l = some b ∧
      (b = a ∨ b ∈ l) ∧ key a ≤ key b ∧ ∀ x ∈ l, key x ≤ key b := by
  induction l generalizing a with
  | nil => exact ⟨a, rfl, Or.inl rfl, le_rfl, by simp⟩
  | cons x xs ih =>
    by_cases h : key a ≤ key x
    · obtain ⟨b, hfold, hmem, hkey, hall⟩ := ih x
      refine ⟨b, ?_, ?_, h.trans hkey, ?_⟩
      · rw [List.foldl_cons]
        show List.foldl (maxStep key) (if key a ≤ key x then some x else some a) xs = some b
        rw [if_pos h]
        exact hfold
      · rcases hmem with rfl | hm
        · exact Or.inr (List.mem_cons_self _ _)
        · exact Or.inr (List.mem_cons_of_mem _ hm)
      · intro z hz
        rcases List.mem_cons.mp hz with rfl | hm
        · exact hkey
        · exact hall z hm
    · obtain ⟨b, hfold, hmem, hkey, hall⟩ := ih a
      refine ⟨b, ?_, ?_, hkey, ?_⟩
      · rw [List.foldl_cons]
        show List.foldl (maxStep key) (if key a ≤ key x then some x else some a) xs = some b
        rw [if_neg h]
        exact hfold
      · rcases hmem with rfl | hm
        · exact Or.inl rfl
        · exact Or.inr (List.mem_cons_of_mem _ hm)
      · intro z hz
        rcases List.mem_cons.mp hz with rfl | hm
        · exact (le_of_not_le h).trans hkey
        · exact hall z hm

theorem max_by_key_last_cons (key : α → ℕ) (x : α) (xs : List α) :
    ∃ b, max_by_key_last key (x :: xs) = some b ∧ b ∈ x :: xs ∧
      ∀ z ∈ x :: xs, key z ≤ key b := by
  obtain ⟨b, hfold, hmem, hkey, hall⟩ := max_by_key_go key xs x
  refine ⟨b, ?_, ?_, ?_⟩
  · unfold max_by_key_last
    rw [List.foldl_cons]
    exact hfold
  · rcases hmem with rfl | hm
    · exact List.mem_cons_self _ _
    · exact List.mem_cons_of_mem _ hm
  · intro z hz
    rcases List.mem_cons.mp hz with rfl | hm
    · exact hkey
    · exact hall z hm

theorem max_by_key_last_eq_some (key : α → ℕ) (l : List α) (b : α)
    (h : max_by_key_last key l = some b) : b ∈ l ∧ ∀ x ∈ l, key x ≤ key b := by
  cases l with
  | nil => cases h
  | cons x xs =>
    obtain ⟨b2, hb2, hmem, hall⟩ := max_by_key_last_cons key x xs
    rw [h] at hb2
    injection hb2 with he
    subst he
    exact ⟨hmem, hall⟩

theorem max_by_key_last_ne_none (key : α → ℕ) (x : α) (xs : List α) :
    max_by_key_last key (x :: xs) ≠ none := by
  obtain ⟨b, hb, -, -⟩ := max_by_key_last_cons key x xs
  rw [hb]
  simp

theorem ncq_foldl_ge (fams : List QueueFamily) (acc : ℕ) :
    acc ≤ fams.foldl (fun total fam =>
      if fam.supports_compute then total + fam.queues_count else total) acc := by
  induction fams generalizing acc with
  | nil => exact le_rfl
  | cons g gs ih =>
    rw [List.foldl_cons]
    refine le_trans ?_ (ih _)
    split_ifs
    · exact Nat.le_add_right _ _
    · exact le_rfl

theorem ncq_ge_of_mem (fams : List QueueFamily) (acc : ℕ) (f : QueueFamily)
    (hf : f ∈ fams) (hc : f.supports_compute = true) :
    acc + f.queues_count ≤ fams.foldl (fun total fam =>
      if fam.supports_compute then total + fam.queues_count else total) acc := by
  induction fams generalizing acc with
  | nil => cases hf
  | cons g gs ih =>
    rw [List.foldl_cons]
    rcases List.mem_cons.mp hf with rfl | hm
    · rw [if_pos hc]
      exact ncq_foldl_ge gs (acc + f.queues_count)
    · refine le_trans ?_ (ih _ hm)
      split_ifs
      · exact Nat.add_le_add_right (Nat.le_add_right _ _) _
      · exact le_rfl

theorem ncq_zero_of_none (fams : List QueueFamily)
    (h : ∀ f ∈ fams, f.supports_compute = false) :
    fams.foldl (fun total fam =>
      if fam.supports_compute then total + fam.queues_count else total) 0 = 0 := by
  induction fams with
  | nil => rfl
  | cons g gs ih =>
    rw [List.foldl_cons, if_neg (by simp [h g (List.mem_cons_self g gs)])]
    exact ih fun f hf => h f (List.mem_cons_of_mem g hf)

theorem one_le_num_compute_queues (d : PhysicalDevice) (f : QueueFamily)
    (hf : f ∈ d.queue_families) (hc : f.supports_compute = true)
    (hq : 1 ≤ f.queues_count) : 1 ≤ num_compute_queues d := by
  have h := ncq_ge_of_mem d.queue_families 0 f hf hc
  unfold num_compute_queues
  omega

theorem exists_compute_family_of_pos (d : PhysicalDevice)
    (h : 1 ≤ num_compute_queues d) :
    ∃ f ∈ d.queue_families, f.supports_compute = true := by
  by_contra hno
  push_neg at hno
  have hz := ncq_zero_of_none d.queue_families
    fun f hf => Bool.eq_false_iff.mpr (hno f hf)
  unfold num_compute_queues at h
  omega

theorem mem_storage_filter (devices : List PhysicalDevice) (ty : PhysicalDeviceType)
    (d : PhysicalDevice) :
    d ∈ (devices.filter fun d2 => d2.ty = ty ∧ d2.khr_storage_buffer_storage_class) ↔
      d ∈ devices ∧ d.ty = ty ∧ d.khr_storage_buffer_storage_class = true := by
  rw [List.mem_filter]
  simp

theorem find_best_by_type_none_iff (devices : List PhysicalDevice) (ty : PhysicalDeviceType)
    (hq : ∀ d ∈ devices, ∀ f ∈ d.queue_families, 1 ≤ f.queues_count) :
    find_best_by_type devices ty = none ↔
      ¬ ∃ d ∈ devices, d.ty = ty ∧ qualifies d := by
  unfold find_best_by_type
  cases hmax : max_by_key_last num_compute_queues
      (devices.filter fun d2 => d2.ty = ty ∧ d2.khr_storage_buffer_storage_class) with
  | none =>
    have hemp : (devices.filter fun d2 =>
        d2.ty = ty ∧ d2.khr_storage_buffer_storage_class) = [] := by
      cases hfil : devices.filter fun d2 =>
          d2.ty = ty ∧ d2.khr_storage_buffer_storage_class with
      | nil => rfl
      | cons x xs => exact absurd (hfil ▸ hmax) (max_by_key_last_ne_none num_compute_queues x xs)
    constructor
    · rintro - ⟨d, hd, hty, hqual⟩
      have hmem : d ∈ (devices.filter fun d2 =>
          d2.ty = ty ∧ d2.khr_storage_buffer_storage_class) :=
        (mem_storage_filter devices ty d).mpr ⟨hd, hty, hqual.1⟩
      rw [hemp] at hmem
      cases hmem
    · rintro -
      rfl
  | some b =>
    show (b.queue_families.find? fun f => f.supports_compute).map (fun q => (b, q)) = none
      ↔ _
    obtain ⟨hbmem, hbmax⟩ := max_by_key_last_eq_some _ _ _ hmax
    obtain ⟨hbdev, hbty, hbkhr⟩ := (mem_storage_filter devices ty b).mp hbmem
    constructor
    · rintro hnone ⟨d, hd, hty, hkhr, f, hf, hfc⟩
      have hdfil : d ∈ (devices.filter fun d2 =>
          d2.ty = ty ∧ d2.khr_storage_buffer_storage_class) :=
        (mem_storage_filter devices ty d).mpr ⟨hd, hty, hkhr⟩
      have hdb := hbmax d hdfil
      have h1 : 1 ≤ num_compute_queues d :=
        one_le_num_compute_queues d f hf hfc (hq d hd f hf)
      obtain ⟨g, hg, hgc⟩ := exists_compute_family_of_pos b (le_trans h1 hdb)
      cases hfind : b.queue_families.find? fun f2 => f2.supports_compute with
      | none =>
        rw [List.find?_eq_none] at hfind
        exact absurd hgc (by simpa using hfind g hg)
      | some q0 =>
        rw [hfind] at hnone
        simp at hnone
    · intro hno
      cases hfind : b.queue_families.find? fun f2 => f2.supports_compute with
      | none => simp
      | some q0 =>
        exfalso
        have hq0c : q0.supports_compute = true := by simpa using List.find?_some hfind
        have hq0mem := List.mem_of_find?_eq_some hfind
        exact hno ⟨b, hbdev, hbty, hbkhr, q0, hq0mem, hq0c⟩

theorem find_best_by_type_eq_some (devices : List PhysicalDevice) (ty : PhysicalDeviceType)
    (d : PhysicalDevice) (q : QueueFamily)
    (h : find_best_by_type devices ty = some (d, q)) :
    d ∈ devices ∧ d.ty = ty ∧ qualifies d ∧
      q ∈ d.queue_families ∧ q.supports_compute = true ∧
      ∀ d2 ∈ devices, d2.ty = ty → d2.khr_storage_buffer_storage_class = true →
        num_compute_queues d2 ≤ num_compute_queues d := by
  unfold find_best_by_type at h
  cases hmax : max_by_key_last num_compute_queues
      (devices.filter fun d2 => d2.ty = ty ∧ d2.khr_storage_buffer_storage_class) with
  | none =>
    rw [hmax] at h
    cases h
  | some b =>
    rw [hmax] at h
    replace h : (b.queue_families.find? fun f => f.supports_compute).map
        (fun q => (b, q)) = some (d, q) := h
    cases hfind : b.queue_families.find? fun f2 => f2.supports_compute with
    | none =>
      rw [hfind] at h
      cases h
    | some q0 =>
      rw [hfind] at h
      simp only [Option.map_some'] at h
      injection h with h2
      obtain ⟨he1, he2⟩ := Prod.mk.inj h2
      obtain ⟨hbmem, hbmax⟩ := max_by_key_last_eq_some _ _ _ hmax
      obtain ⟨hbdev, hbty, hbkhr⟩ := (mem_storage_filter devices ty b).mp hbmem
      have hqc : q0.supports_compute = true := by simpa using List.find?_some hfind
      have hqmem := List.mem_of_find?_eq_some hfind
      rw [← he1, ← he2]
      refine ⟨hbdev, hbty, ⟨hbkhr, q0, hqmem, hqc⟩, hqmem, hqc, ?_⟩
      intro d2 hd2 hty2 hkhr2
      exact hbmax d2 ((mem_storage_filter devices ty d2).mpr ⟨hd2, hty2, hkhr2⟩)

theorem orElse_some {α : Type} (a : α) (f : Unit → Option α) :
    (Option.some a).orElse f = some a := rfl

theorem orElse_none {α : Type} (f : Unit → Option α) :
    (Option.none).orElse f = f () := rfl

theorem fbpd_spec (devices : List PhysicalDevice) :
    (find_best_physical_device devices = none ↔
      ∀ t : PhysicalDeviceType, find_best_by_type devices t = none) ∧
    ∀ p, find_best_physical_device devices = some p →
      ∃ t : PhysicalDeviceType, find_best_by_type devices t = some p ∧
        ∀ t2 : PhysicalDeviceType, classRank t2 < classRank t →
          find_best_by_type devices t2 = none := by
  unfold find_best_physical_device
  cases hA : find_best_by_type devices .DiscreteGpu with
  | some v =>
    simp only [orElse_some]
    refine ⟨⟨fun h => Option.noConfusion h, fun hall => by rw [hall .DiscreteGpu] at hA; exact Option.noConfusion hA⟩, ?_⟩
    intro p hp
    injection hp with hp
    subst hp
    refine ⟨.DiscreteGpu, hA, ?_⟩
    intro t2 ht2
    cases t2 <;> simp [classRank] at ht2
  | none =>
    simp only [orElse_none]
    cases hB : find_best_by_type devices .IntegratedGpu with
    | some v =>
      simp only [orElse_some]
      refine ⟨⟨fun h => Option.noConfusion h, fun hall => by rw [hall .IntegratedGpu] at hB; exact Option.noConfusion hB⟩, ?_⟩
      intro p hp
      injection hp with hp
      subst hp
      refine ⟨.IntegratedGpu, hB, ?_⟩
      intro t2 ht2
      cases t2 <;> simp [classRank] at ht2
      exact hA
    | none =>
      simp only [orElse_none]
      cases hC : find_best_by_type devices .VirtualGpu with
      | some v =>
        simp only [orElse_some]
        refine ⟨⟨fun h => Option.noConfusion h, fun hall => by rw [hall .VirtualGpu] at hC; exact Option.noConfusion hC⟩, ?_⟩
        intro p hp
        injection hp with hp
        subst hp
        refine ⟨.VirtualGpu, hC, ?_⟩
        intro t2 ht2
        cases t2 <;> simp [classRank] at ht2
        · exact hA
        · exact hB
      | none =>
        simp only [orElse_none]
        cases hD : find_best_by_type devices .Cpu with
        | some v =>
          simp only [orElse_some]
          refine ⟨⟨fun h => Option.noConfusion h, fun hall => by rw [hall .Cpu] at hD; exact Option.noConfusion hD⟩, ?_⟩
          intro p hp
          injection hp with hp
          subst hp
          refine ⟨.Cpu, hD, ?_⟩
          intro t2 ht2
          cases t2 <;> simp [classRank] at ht2
          · exact hA
          · exact hB
          · exact hC
        | none =>
          simp only [orElse_none]
          cases hE : find_best_by_type devices .Other with
          | some v =>
            refine ⟨⟨fun h => Option.noConfusion h, fun hall => by rw [hall .Other] at hE; exact Option.noConfusion hE⟩, ?_⟩
            intro p hp
            injection hp with hp
            subst hp
            refine ⟨.Other, hE, ?_⟩
            intro t2 ht2
            cases t2 <;> simp [classRank] at ht2
            · exact hA
            · exact hB
            · exact hC
            · exact hD
          | none =>
            refine ⟨⟨fun _ t => ?_, fun _ => rfl⟩, fun p hp => by cases hp⟩
            cases t
            · exact hA
            · exact hB
            · exact hC
            · exact hD
            · exact hE

theorem rank_ge_of_earlier_none (devices : List PhysicalDevice)
    (hq : ∀ d ∈ devices, ∀ f ∈ d.queue_families, 1 ≤ f.queues_count)
    (d2 : PhysicalDevice) (hd2 : d2 ∈ devices) (hqual : qualifies d2) (r : ℕ)
    (hnone : ∀ t : PhysicalDeviceType, classRank t < r →
      find_best_by_type devices t = none) :
    r ≤ classRank d2.ty := by
  by_contra hlt
  push_neg at hlt
  have hn := hnone d2.ty hlt
  exact (find_best_by_type_none_iff devices d2.ty hq).mp hn ⟨d2, hd2, rfl, hqual⟩

/-- A discrete GPU that supports device-local storage buffers but exposes
only a single non-compute queue family. -/
def soloDevice : PhysicalDevice :=
  ⟨.DiscreteGpu, true, [⟨false, 1⟩]⟩

/-- C7 counterexample: with `soloDevice` as the only enumerated device,
device discovery returns `none` — `JuliaContext::new` then fails with
`JuliaCreationError::DeviceDiscovery` — even though a device supporting
device-local storage buffers exists, so "fails if and only if no device
qualifies" is false under the claim's storage-buffer-only reading of
"qualifies": `find_best_by_type` pairs the selected device with its first
compute-capable queue family and gives up when there is none. -/
theorem discovery_fails_despite_storage_support :
    find_best_physical_device [soloDevice] = none ∧
    soloDevice.khr_storage_buffer_storage_class = true ∧
    soloDevice ∈ [soloDevice] := by
  refine ⟨rfl, rfl, List.mem_singleton.mpr rfl⟩

/-- C7 (amended): under the Vulkan guarantee that every queue family has at
least one queue, `find_best_physical_device` returns `none` — producing the
DeviceDiscovery error — exactly when no enumerated device both supports
device-local storage buffers and has a compute-capable queue family; and
any returned device is an enumerated, qualifying one, paired with one of
its compute-capable families, of the best-ranked class (discrete >
integrated > virtual > CPU > other) containing a qualifying device, with
the most compute queues among the storage-supporting devices of its
class. -/
theorem device_discovery_spec (devices : List PhysicalDevice)
    (hq : ∀ d ∈ devices, ∀ f ∈ d.queue_families, 1 ≤ f.queues_count) :
    (find_best_physical_device devices = none ↔ ¬ ∃ d ∈ devices, qualifies d) ∧
    ∀ d q, find_best_physical_device devices = some (d, q) →
      d ∈ devices ∧ qualifies d ∧ q ∈ d.queue_families ∧ q.supports_compute = true ∧
      (∀ d2 ∈ devices, qualifies d2 → classRank d.ty ≤ classRank d2.ty) ∧
      (∀ d2 ∈ devices, qualifies d2 → d2.ty = d.ty →
        num_compute_queues d2 ≤ num_compute_queues d) := by
  obtain ⟨hiff, hsome⟩ := fbpd_spec devices
  constructor
  · rw [hiff]
    constructor
    · rintro hall ⟨d, hd, hqual⟩
      exact (find_best_by_type_none_iff devices d.ty hq).mp (hall d.ty) ⟨d, hd, rfl, hqual⟩
    · intro hno t
      rw [find_best_by_type_none_iff devices t hq]
      rintro ⟨d, hd, -, hqual⟩
      exact hno ⟨d, hd, hqual⟩
  · intro d q hdq
    obtain ⟨t, ht, hearlier⟩ := hsome (d, q) hdq
    obtain ⟨hddev, hdty, hdqual, hqmem, hqc, hmaxq⟩ := find_best_by_type_eq_some devices t d q ht
    refine ⟨hddev, hdqual, hqmem, hqc, ?_, ?_⟩
    · intro d2 hd2 hqual2
      rw [hdty]
      exact rank_ge_of_earlier_none devices hq d2 hd2 hqual2 (classRank t) hearlier
    · intro d2 hd2 hqual2 hty2
      exact hmaxq d2 hd2 (hty2.trans hdty) hqual2.1

/-- A single integrated GPU with storage-buffer support and one
compute-capable queue family with two queues. -/
def goodDevice : PhysicalDevice :=
  ⟨.IntegratedGpu, true, [⟨true, 2⟩]⟩

/-- Witness for the amended C7: with one qualifying integrated GPU,
discovery does not fail. -/
theorem device_discovery_spec_witness :
    ¬ (find_best_physical_device [goodDevice] = none) := by
  have h := (device_discovery_spec [goodDevice] (by
    rintro d hd f hf
    rw [List.mem_singleton] at hd
    subst hd
    have hf2 : f ∈ [(⟨true, 2⟩ : QueueFamily)] := hf
    rw [List.mem_singleton] at hf2
    subst hf2
    norm_num)).1
  rw [h]
  intro hno
  exact hno ⟨goodDevice, List.mem_singleton.mpr rfl, rfl,
    ⟨true, 2⟩, List.mem_singleton.mpr rfl, rfl⟩

end Julia
